import Mathlib

/-!
A shallow embedding of `src/shims.py` (hue-shims): a reconciliation loop
that polls a smart-lighting hub for the reachability of "trigger" lights
and drives "target" lights to match, together with its retry utility
(`exp_backoff`) and scoped logging context (`LoggingContext`).

HTTP calls are modelled by environments (oracles): each GET of a light
yields a `GetResult`, each PUT a `PutResult`.  Raised Python exceptions
become `Except Unit` errors; `time.sleep` calls and issued PUT requests
are recorded in traces so that claims about waits and device writes can
be stated.  The infinite `run` loop is modelled by its loop body
(`run_step`), one reconciliation step.
-/

namespace HueShims

/-- The `state` object of a hub JSON response body: `reachable` and `on`
are each either absent or a boolean (`r.json()["state"]["reachable"]`,
`...["on"]`). -/
structure StateObj where
  reachable : Option Bool
  on_ : Option Bool
deriving DecidableEq, Repr

/-- Outcome of `requests.get(f'.../lights/{id}')` followed by
`raise_for_status()`: either a raised error (network failure or non-2xx
status), or a 2xx response whose JSON body has the `state` key present
(`some`) or absent (`none`). -/
inductive GetResult where
  | httpErr : GetResult
  | ok : Option StateObj → GetResult
deriving DecidableEq, Repr

/-- Outcome of `requests.put(f'.../lights/{id}/state', ...)` followed by
`raise_for_status()`: raised error, or 2xx success. -/
inductive PutResult where
  | httpErr : PutResult
  | ok2xx : PutResult
deriving DecidableEq, Repr

/-- The mutable state of a `DumbSwitchShim` instance: the fields set in
`__init__`.  Only `on` is ever mutated after construction. -/
structure Shim where
  api : String
  trigger_light_ids : List Nat
  target_light_ids : List Nat
  on_ : Bool
deriving DecidableEq, Repr

/-- Replace the `on` field (`self.on = on`). -/
def setOn (s : Shim) (b : Bool) : Shim :=
  { s with on_ := b }

/-- Embedding of `DumbSwitchShim._get_light_reachable`: GET the light,
`raise_for_status`, then `r.json().get("state", {"reachable"}).get("reachable")`.
A raised error (network / non-2xx) is `.error`.  When the body lacks the
`state` key the fallback default is the SET `{"reachable"}`, which has no
`.get` method, so the access raises `AttributeError`: also `.error`.
When `state` is present the result is its `reachable` value (`none` when
the key is absent, which Python renders as `None`). -/
def get_light_reachable (env : Nat → GetResult) (light_id : Nat) :
    Except Unit (Option Bool) :=
  match env light_id with
  | .httpErr => .error ()
  | .ok none => .error ()
  | .ok (some st) => .ok st.reachable

/-- Embedding of `DumbSwitchShim.lights_reachable`, instrumented with the
list of trigger lights actually queried: iterate over the trigger ids in
order; a truthy `reachable` returns `True`; a raised query error logs a
warning and BREAKS the loop; falling off the loop returns `False`. -/
def lights_reachable_trace (env : Nat → GetResult) :
    List Nat → Bool × List Nat
  | [] => (false, [])
  | l :: rest =>
    match get_light_reachable env l with
    | .error _ => (false, [l])
    | .ok r =>
      if r = some true then (true, [l])
      else
        ((lights_reachable_trace env rest).1,
          l :: (lights_reachable_trace env rest).2)

/-- The boolean result of `DumbSwitchShim.lights_reachable`. -/
def lights_reachable (env : Nat → GetResult) (triggers : List Nat) : Bool :=
  (lights_reachable_trace env triggers).1

/-- Embedding of `DumbSwitchShim.__init__`: store the configuration and
initialise `self.on` by an initial reachability probe
(`self.on = self.lights_reachable()`). -/
def DumbSwitchShim_init (env : Nat → GetResult) (api : String)
    (trigger_light_ids target_light_ids : List Nat) : Shim :=
  { api := api
    trigger_light_ids := trigger_light_ids
    target_light_ids := target_light_ids
    on_ := lights_reachable env trigger_light_ids }

/-- The two HTTP outcomes one call to `toggle_light` consumes: the PUT of
the desired state, and the verification GET that follows the settle
sleep. -/
structure ToggleEnv where
  put : PutResult
  read : GetResult
deriving DecidableEq, Repr

/-- Result of one fallible operation together with its observable
effects: raised-or-returned outcome, PUT requests issued
(light id, value), sleeps performed, and the state after the call. -/
structure Attempt (σ : Type) where
  res : Except Unit Unit
  puts : List (Nat × Bool)
  sleeps : List Nat
  st : σ

/-- The value `r.json().get('state', {}).get('on')` read back by the
verification GET in `toggle_light` (after `raise_for_status`): here the
fallback default is the empty dict, so a missing `state` key yields
`None` rather than raising. -/
def readOnValue : GetResult → Except Unit (Option Bool)
  | .httpErr => .error ()
  | .ok none => .ok none
  | .ok (some st) => .ok st.on_

/-- Embedding of `DumbSwitchShim.toggle_light`: PUT the desired `on`
value and `raise_for_status`; then `time.sleep(30)`; then GET the light
back, `raise_for_status`, and `assert` the read-back `on` equals the
desired value (a mismatch raises `AssertionError`); only then execute
`self.on = on`.  Any raise leaves `self.on` untouched and propagates to
the caller (`exp_backoff`). -/
def toggle_light (env : ToggleEnv) (s : Shim) (light_id : Nat) (on_ : Bool) :
    Attempt Shim :=
  match env.put with
  | .httpErr => ⟨.error (), [(light_id, on_)], [], s⟩
  | .ok2xx =>
    match readOnValue env.read with
    | .error _ => ⟨.error (), [(light_id, on_)], [30], s⟩
    | .ok v =>
      if v = some on_ then ⟨.ok (), [(light_id, on_)], [30], setOn s on_⟩
      else ⟨.error (), [(light_id, on_)], [30], s⟩

/-- Whether one `toggle_light` call with HTTP outcomes `te` and desired
value `on` succeeds (no raise): the PUT is 2xx, the verification read is
2xx, and the read-back `on` value equals the desired one. -/
def toggleSucceeds (te : ToggleEnv) (on_ : Bool) : Bool :=
  match te.put with
  | .httpErr => false
  | .ok2xx =>
    match readOnValue te.read with
    | .error _ => false
    | .ok v => v = some on_

/-- Embedding of the loop body of `exp_backoff`, generalised over the
current loop index `i` and the number of remaining iterations: call `f`;
on a raise, log a warning and `time.sleep(i**2)`, then continue; on
success, `break`.  Returns (number of calls made, PUTs issued, sleeps
performed, final state); the backoff sleep is recorded after the failing
call's own effects. -/
def expBackoffGo {σ : Type} (f : Nat → σ → Attempt σ) :
    Nat → Nat → σ → Nat × List (Nat × Bool) × List Nat × σ
  | _, 0, s => (0, [], [], s)
  | i, n + 1, s =>
    match (f i s).res with
    | .ok _ => (1, (f i s).puts, (f i s).sleeps, (f i s).st)
    | .error _ =>
      ((expBackoffGo f (i + 1) n (f i s).st).1 + 1,
        (f i s).puts ++ (expBackoffGo f (i + 1) n (f i s).st).2.1,
        (f i s).sleeps ++ i ^ 2 :: (expBackoffGo f (i + 1) n (f i s).st).2.2.1,
        (expBackoffGo f (i + 1) n (f i s).st).2.2.2)

/-- Embedding of `exp_backoff(f, tries, ...)`: `for i in range(tries)`
starting at index 0.  The `except Exception` clause makes the utility
total: it never propagates a raise of `f`, which the model reflects by
returning outside `Except`. -/
def exp_backoff {σ : Type} (f : Nat → σ → Attempt σ) (tries : Nat) (s : σ) :
    Nat × List (Nat × Bool) × List Nat × σ :=
  expBackoffGo f 0 tries s

/-- A pure fallible operation with no effects and no state, given by the
success/failure outcome of its j-th invocation (0-indexed): the shape of
`f` relevant to the retry-count and backoff claims. -/
def pureOp (outcomes : Nat → Bool) : Nat → Unit → Attempt Unit :=
  fun i _ => ⟨if outcomes i then .ok () else .error (), [], [], ()⟩

/-- Number of times `exp_backoff(f, tries)` invokes `f` when the j-th
invocation of `f` succeeds iff `outcomes j`. -/
def retryCalls (outcomes : Nat → Bool) (tries : Nat) : Nat :=
  (exp_backoff (pureOp outcomes) tries ()).1

/-- The sleeps `exp_backoff(f, tries)` performs, in order, when the j-th
invocation of `f` succeeds iff `outcomes j` (and `f` itself sleeps
nowhere). -/
def retrySleeps (outcomes : Nat → Bool) (tries : Nat) : List Nat :=
  (exp_backoff (pureOp outcomes) tries ()).2.2.1

/-- The wait inserted before attempt `i` (1-indexed), read off the trace
of backoff sleeps: no sleep precedes the first attempt, and attempt `i`
(for `i ≥ 2`) is preceded by the `(i-2)`-th recorded sleep (0-indexed),
the one executed after the failure of attempt `i-1`. -/
def waitBeforeAttempt (sleeps : List Nat) (i : Nat) : Nat :=
  if i ≤ 1 then 0 else sleeps.getD (i - 2) 0

/-- The HTTP world one reconciliation step interacts with: `probe` gives
each trigger light's GET outcome during this step's reachability probe,
and `toggle p i` gives the PUT/GET outcomes consumed by attempt `i`
(0-indexed) of `exp_backoff(self.toggle_light, 3, ...)` for the target
at position `p` of `target_light_ids`. -/
structure StepEnv where
  probe : Nat → GetResult
  toggle : Nat → Nat → ToggleEnv

/-- Embedding of the transition branches' `for light in
self.target_light_ids: exp_backoff(self.toggle_light, 3, light, v)`:
fold over the targets from position `p`, threading the shim state that
`toggle_light` may mutate.  Returns (final shim, PUTs issued, sleeps). -/
def drive_targets (tenv : Nat → Nat → ToggleEnv) (v : Bool) :
    List Nat → Nat → Shim → Shim × List (Nat × Bool) × List Nat
  | [], _, s => (s, [], [])
  | l :: rest, p, s =>
    ((drive_targets tenv v rest (p + 1)
        (exp_backoff (fun i sh => toggle_light (tenv p i) sh l v) 3 s).2.2.2).1,
      (exp_backoff (fun i sh => toggle_light (tenv p i) sh l v) 3 s).2.1 ++
        (drive_targets tenv v rest (p + 1)
          (exp_backoff (fun i sh => toggle_light (tenv p i) sh l v) 3 s).2.2.2).2.1,
      (exp_backoff (fun i sh => toggle_light (tenv p i) sh l v) 3 s).2.2.1 ++
        (drive_targets tenv v rest (p + 1)
          (exp_backoff (fun i sh => toggle_light (tenv p i) sh l v) 3 s).2.2.2).2.2)

/-- Embedding of one iteration of the `while True` loop in
`DumbSwitchShim.run`: sleep 30 if `self.on` else 5, probe
`lights_reachable`, and branch — transition branches drive every target
light (desired value = the probe result) under a `LoggingContext`, while
the no-change branches only log at debug level.  Returns (shim after the
step, PUT requests issued, sleeps performed).  Note the loop body itself
never assigns `self.on`; only `toggle_light` does, on success. -/
def run_step (env : StepEnv) (s : Shim) : Shim × List (Nat × Bool) × List Nat :=
  if lights_reachable env.probe s.trigger_light_ids then
    if s.on_ then (s, [], [30])
    else
      ((drive_targets env.toggle true s.target_light_ids 0 s).1,
        (drive_targets env.toggle true s.target_light_ids 0 s).2.1,
        5 :: (drive_targets env.toggle true s.target_light_ids 0 s).2.2)
  else
    if s.on_ then
      ((drive_targets env.toggle false s.target_light_ids 0 s).1,
        (drive_targets env.toggle false s.target_light_ids 0 s).2.1,
        30 :: (drive_targets env.toggle false s.target_light_ids 0 s).2.2)
    else (s, [], [5])

/-- The observable state of the (single, root) logger together with the
close state of handler resources: the logger's severity level, its list
of attached handlers (by id), and the set of handlers whose `close()`
has been called. -/
structure LogWorld where
  level : Int
  handlers : List Nat
  closed : List Nat
deriving DecidableEq, Repr

/-- The constructor arguments of `LoggingContext` (the `logger` argument
is fixed to the root logger of the world): an optional severity-level
override, an optional handler to attach, and whether to close that
handler on exit (default `True` in the source). -/
structure LoggingContext where
  level : Option Int
  handler : Option Nat
  close : Bool
deriving DecidableEq, Repr

/-- `logging.Logger.addHandler`: appends the handler unless it is
already attached. -/
def addHandler (w : LogWorld) (h : Nat) : LogWorld :=
  if h ∈ w.handlers then w else { w with handlers := w.handlers ++ [h] }

/-- `logging.Logger.removeHandler`: removes the handler if attached. -/
def removeHandler (w : LogWorld) (h : Nat) : LogWorld :=
  if h ∈ w.handlers then { w with handlers := w.handlers.erase h } else w

/-- `Handler.close()`: marks the handler's resource closed. -/
def closeHandler (w : LogWorld) (h : Nat) : LogWorld :=
  { w with closed := h :: w.closed }

/-- Embedding of `LoggingContext.__enter__`: when a level override is
given, save the logger's current level (`self.old_level`) and set the
new one; when a handler is given, attach it.  Returns the world after
entry and the saved old level (present iff a level override was
given). -/
def LoggingContext_enter (c : LoggingContext) (w : LogWorld) :
    LogWorld × Option Int :=
  match c.level with
  | some lv =>
    (match c.handler with
      | some h => (addHandler { w with level := lv } h, some w.level)
      | none => ({ w with level := lv }, some w.level))
  | none =>
    (match c.handler with
      | some h => (addHandler w h, none)
      | none => (w, none))

/-- Embedding of `LoggingContext.__exit__`: when a level override was
given, restore the saved old level; when a handler was given, detach it,
and close it when `close` is set.  The method returns `None`, so a
propagating exception is never suppressed. -/
def LoggingContext_exit (c : LoggingContext) (old : Option Int)
    (w : LogWorld) : LogWorld :=
  match c.handler with
  | some h =>
    (if c.close then
      closeHandler
        (removeHandler
          (match c.level, old with
            | some _, some ol => { w with level := ol }
            | _, _ => w) h) h
    else
      removeHandler
        (match c.level, old with
          | some _, some ol => { w with level := ol }
          | _, _ => w) h)
  | none =>
    match c.level, old with
    | some _, some ol => { w with level := ol }
    | _, _ => w

/-- Embedding of `with LoggingContext(...): body`: `__enter__`, then the
body (which either returns a value or raises an error `e : E`), then
`__exit__` on both the normal and the exceptional path; since `__exit__`
returns `None`, the body's outcome — value or raised error — passes
through unchanged. -/
def withLoggingContext {E A : Type} (c : LoggingContext) (body : Except E A)
    (w : LogWorld) : Except E A × LogWorld :=
  (body,
    LoggingContext_exit c (LoggingContext_enter c w).2
      (LoggingContext_enter c w).1)

/-! ### Concrete fixtures used by witnesses and counterexamples -/

/-- A hub where querying light 1 raises (e.g. a 404) and every other
light reports `reachable: true`. -/
def probeErrAt1 : Nat → GetResult := fun n =>
  if n = 1 then .httpErr else .ok (some ⟨some true, none⟩)

/-- A hub where light 1's 2xx body has a `state` object without the
`reachable` key, and every other light reports `reachable: true`. -/
def probeStateNoReach : Nat → GetResult := fun n =>
  if n = 1 then .ok (some ⟨none, none⟩) else .ok (some ⟨some true, none⟩)

/-- A hub where light 1's 2xx body lacks the `state` key entirely, and
every other light reports `reachable: true`. -/
def probeNoState : Nat → GetResult := fun n =>
  if n = 1 then .ok none else .ok (some ⟨some true, none⟩)

/-- A hub where every light reports `reachable: true`. -/
def probeAllReachable : Nat → GetResult := fun _ =>
  .ok (some ⟨some true, none⟩)

/-- Toggle outcomes: the PUT is 2xx and the verification read is 2xx
reporting `on = b`. -/
def toggleReadBack (b : Bool) : ToggleEnv :=
  ⟨.ok2xx, .ok (some ⟨none, some b⟩)⟩

/-- A shim with one trigger light and no target lights, currently OFF. -/
def shimNoTargets : Shim :=
  { api := "http://h/api/u", trigger_light_ids := [1],
    target_light_ids := [], on_ := false }

/-- A shim with one trigger light and one target light (id 7), currently
OFF. -/
def shimOneTarget : Shim :=
  { api := "http://h/api/u", trigger_light_ids := [1],
    target_light_ids := [7], on_ := false }

/-- A step environment where every trigger is reachable but every write
verification reads back `on = false`, so every attempt to turn a light
ON fails. -/
def stepEnvWriteFails : StepEnv :=
  ⟨probeAllReachable, fun _ _ => toggleReadBack false⟩

/-- A step environment where every trigger is reachable and every write
verification reads back `on = true`, so turning a light ON succeeds at
the first attempt. -/
def stepEnvWriteOK : StepEnv :=
  ⟨probeAllReachable, fun _ _ => toggleReadBack true⟩

/-! ### Lemmas about the reachability probe -/

/-- A scan of triggers that are all queried without error and all
non-reachable returns `false` having queried every trigger. -/
theorem lights_reachable_all_not (env : Nat → GetResult) :
    ∀ ts : List Nat,
      (∀ x ∈ ts, ∃ r, get_light_reachable env x = .ok r ∧ r ≠ some true) →
      lights_reachable_trace env ts = (false, ts) := by
  intro ts
  induction ts with
  | nil => intro _; rfl
  | cons l rest ih =>
    intro hall
    obtain ⟨r, hr, hrne⟩ := hall l (List.mem_cons_self l rest)
    have hrest := ih fun x hx => hall x (List.mem_cons_of_mem l hx)
    simp [lights_reachable_trace, hr, hrne, hrest]

/-- The probe returns `true` at the first reachable trigger, having
queried exactly the triggers up to and including it. -/
theorem lights_reachable_first_true (env : Nat → GetResult) :
    ∀ a : List Nat, ∀ t : Nat, ∀ post : List Nat,
      (∀ x ∈ a, ∃ r, get_light_reachable env x = .ok r ∧ r ≠ some true) →
      get_light_reachable env t = .ok (some true) →
      lights_reachable_trace env (a ++ t :: post) = (true, a ++ [t]) := by
  intro a
  induction a with
  | nil =>
    intro t post _ ht
    simp [lights_reachable_trace, ht]
  | cons x a2 ih =>
    intro t post hall ht
    obtain ⟨r, hr, hrne⟩ := hall x (List.mem_cons_self x a2)
    have h2 := ih t post (fun y hy => hall y (List.mem_cons_of_mem x hy)) ht
    simp [lights_reachable_trace, hr, hrne, h2]

/-- The probe returns `false` at the first erroring trigger, having
queried exactly the triggers up to and including it: the remaining
triggers are never queried. -/
theorem lights_reachable_first_err (env : Nat → GetResult) :
    ∀ a : List Nat, ∀ t : Nat, ∀ post : List Nat,
      (∀ x ∈ a, ∃ r, get_light_reachable env x = .ok r ∧ r ≠ some true) →
      get_light_reachable env t = .error () →
      lights_reachable_trace env (a ++ t :: post) = (false, a ++ [t]) := by
  intro a
  induction a with
  | nil =>
    intro t post _ ht
    simp [lights_reachable_trace, ht]
  | cons x a2 ih =>
    intro t post hall ht
    obtain ⟨r, hr, hrne⟩ := hall x (List.mem_cons_self x a2)
    have h2 := ih t post (fun y hy => hall y (List.mem_cons_of_mem x hy)) ht
    simp [lights_reachable_trace, hr, hrne, h2]

/-! ### Claim C2: probe semantics (first reachable wins, fail fast on
error, false on exhaustion) -/

/-- C2: for every configured trigger sequence and every per-trigger query
outcome, `lights_reachable` returns `true` on the first trigger reported
reachable (querying in configured order, stopping there); returns
`false` immediately when a query raises, without querying the remaining
triggers (the query trace ends at the erroring trigger); and returns
`false` when the whole sequence is scanned with no trigger reachable and
no error. -/
theorem C2_probe_first_reachable_and_fail_fast (env : Nat → GetResult) :
    (∀ a t post,
      (∀ x ∈ a, ∃ r, get_light_reachable env x = .ok r ∧ r ≠ some true) →
      get_light_reachable env t = .ok (some true) →
      lights_reachable env (a ++ t :: post) = true ∧
        lights_reachable_trace env (a ++ t :: post) = (true, a ++ [t])) ∧
    (∀ a t post,
      (∀ x ∈ a, ∃ r, get_light_reachable env x = .ok r ∧ r ≠ some true) →
      get_light_reachable env t = .error () →
      lights_reachable env (a ++ t :: post) = false ∧
        lights_reachable_trace env (a ++ t :: post) = (false, a ++ [t])) ∧
    (∀ ts,
      (∀ x ∈ ts, ∃ r, get_light_reachable env x = .ok r ∧ r ≠ some true) →
      lights_reachable env ts = false ∧
        lights_reachable_trace env ts = (false, ts)) := by
  refine ⟨fun a t post ha ht => ?_, fun a t post ha ht => ?_, fun ts hts => ?_⟩
  · have h := lights_reachable_first_true env a t post ha ht
    exact ⟨by simp [lights_reachable, h], h⟩
  · have h := lights_reachable_first_err env a t post ha ht
    exact ⟨by simp [lights_reachable, h], h⟩
  · have h := lights_reachable_all_not env ts hts
    exact ⟨by simp [lights_reachable, h], h⟩

/-- Witness for C2, at the spec's own scenario: triggers `[1, 2]`,
querying light 1 raises, light 2 would be reachable; the probe returns
`false` and light 2 is never queried. -/
theorem C2_witness :
    lights_reachable probeErrAt1 [1, 2] = false ∧
    lights_reachable_trace probeErrAt1 [1, 2] = (false, [1]) := by
  have h := (C2_probe_first_reachable_and_fail_fast probeErrAt1).2.1 [] 1 [2]
    (by simp) (by rfl)
  simpa using h

/-! ### Claim C10: asymmetric handling of malformed probe bodies -/

/-- C10: for a 2xx trigger-query response whose `state` object lacks the
`reachable` key, the per-trigger query returns a non-`true` value and
the probe continues to the next trigger; whereas a 2xx response lacking
the `state` key entirely raises (the fallback default `{"reachable"}` is
a set with no `.get`), which takes the fail-fast path and forces the
whole probe to `false`, the remaining triggers unqueried. -/
theorem C10_malformed_body_asymmetry (env : Nat → GetResult) (t : Nat)
    (rest : List Nat) (o : Option Bool) :
    (env t = .ok (some ⟨none, o⟩) →
      get_light_reachable env t = .ok none ∧
      lights_reachable_trace env (t :: rest) =
        ((lights_reachable_trace env rest).1,
          t :: (lights_reachable_trace env rest).2)) ∧
    (env t = .ok none →
      get_light_reachable env t = .error () ∧
      lights_reachable env (t :: rest) = false ∧
      lights_reachable_trace env (t :: rest) = (false, [t])) := by
  constructor
  · intro h
    constructor
    · simp [get_light_reachable, h]
    · simp [lights_reachable_trace, get_light_reachable, h]
  · intro h
    refine ⟨by simp [get_light_reachable, h], ?_, ?_⟩
    · simp [lights_reachable, lights_reachable_trace, get_light_reachable, h]
    · simp [lights_reachable_trace, get_light_reachable, h]

/-- Witness for C10: with triggers `[1, 2]`, a `state`-without-
`reachable` body at light 1 lets the probe continue and find light 2
reachable, while a body with no `state` key at light 1 aborts the probe
to `false` with light 2 unqueried. -/
theorem C10_witness :
    lights_reachable_trace probeStateNoReach [1, 2] = (true, [1, 2]) ∧
    lights_reachable probeNoState [1, 2] = false ∧
    lights_reachable_trace probeNoState [1, 2] = (false, [1]) := by
  have h1 := (C10_malformed_body_asymmetry probeStateNoReach 1 [2] none).1
    (by rfl)
  have h2 := (C10_malformed_body_asymmetry probeNoState 1 [2] none).2
    (by rfl)
  refine ⟨?_, h2.2.1, h2.2.2⟩
  rw [h1.2]
  rfl

/-! ### Lemmas about the retry utility on a pure operation -/

/-- When every attempt in range fails, `exp_backoff`'s loop runs all its
iterations: the operation is invoked once per iteration. -/
theorem expBackoffGo_pure_all_fail (outcomes : Nat → Bool) :
    ∀ n i, (∀ j, j < n → outcomes (i + j) = false) →
      (expBackoffGo (pureOp outcomes) i n ()).1 = n := by
  intro n
  induction n with
  | zero => intro i _; rfl
  | succ n ih =>
    intro i h
    have h0 : outcomes i = false := by simpa using h 0 (Nat.succ_pos n)
    have hrec : (expBackoffGo (pureOp outcomes) (i + 1) n ()).1 = n := by
      refine ih (i + 1) fun j hj => ?_
      have := h (j + 1) (Nat.succ_lt_succ hj)
      have harith : i + (j + 1) = i + 1 + j := by omega
      rwa [harith] at this
    simp [expBackoffGo, pureOp, h0, hrec]

/-- When the first `k` attempts fail and attempt `k` (0-indexed)
succeeds, `exp_backoff`'s loop breaks after `k + 1` invocations. -/
theorem expBackoffGo_pure_first_success (outcomes : Nat → Bool) :
    ∀ n i k, k < n → (∀ j, j < k → outcomes (i + j) = false) →
      outcomes (i + k) = true →
      (expBackoffGo (pureOp outcomes) i n ()).1 = k + 1 := by
  intro n
  induction n with
  | zero => intro i k hk _ _; exact absurd hk (Nat.not_lt_zero k)
  | succ n ih =>
    intro i k hk hfail hsucc
    cases k with
    | zero =>
      have h0 : outcomes i = true := by simpa using hsucc
      simp [expBackoffGo, pureOp, h0]
    | succ k2 =>
      have h0 : outcomes i = false := by simpa using hfail 0 (Nat.succ_pos k2)
      have hrec : (expBackoffGo (pureOp outcomes) (i + 1) n ()).1 = k2 + 1 := by
        refine ih (i + 1) k2 (Nat.lt_of_succ_lt_succ hk) (fun j hj => ?_) ?_
        · have := hfail (j + 1) (Nat.succ_lt_succ hj)
          have harith : i + (j + 1) = i + 1 + j := by omega
          rwa [harith] at this
        · have harith : i + (k2 + 1) = i + 1 + k2 := by omega
          rwa [harith] at hsucc
      simp [expBackoffGo, pureOp, h0, hrec]

/-- The backoff sleeps of `exp_backoff` on a pure operation form the
sequence `(i+0)², (i+1)², ...` (one entry per failed attempt), and the
number of invocations exceeds the number of sleeps by at most one. -/
theorem expBackoffGo_pure_sleeps (outcomes : Nat → Bool) :
    ∀ n i,
      (∀ j, j < (expBackoffGo (pureOp outcomes) i n ()).2.2.1.length →
        (expBackoffGo (pureOp outcomes) i n ()).2.2.1.getD j 0 = (i + j) ^ 2) ∧
      (expBackoffGo (pureOp outcomes) i n ()).1 ≤
        (expBackoffGo (pureOp outcomes) i n ()).2.2.1.length + 1 := by
  intro n
  induction n with
  | zero => intro i; exact ⟨by intro j hj; simp [expBackoffGo] at hj, by simp [expBackoffGo]⟩
  | succ n ih =>
    intro i
    cases h0 : outcomes i with
    | true =>
      constructor
      · intro j hj
        simp [expBackoffGo, pureOp, h0] at hj
      · simp [expBackoffGo, pureOp, h0]
    | false =>
      obtain ⟨hpt, hc⟩ := ih (i + 1)
      constructor
      · intro j hj
        cases j with
        | zero => simp [expBackoffGo, pureOp, h0]
        | succ j2 =>
          have hj2 : j2 < (expBackoffGo (pureOp outcomes) (i + 1) n ()).2.2.1.length := by
            simp [expBackoffGo, pureOp, h0] at hj
            omega
          have := hpt j2 hj2
          have harith : i + 1 + j2 = i + (j2 + 1) := by omega
          rw [harith] at this
          simpa [expBackoffGo, pureOp, h0] using this
      · simp [expBackoffGo, pureOp, h0]
        omega

/-! ### Claim C3: retry counts and no error propagation -/

/-- C3: for every operation (given by the success outcome of its j-th
invocation) and bound `N`, `exp_backoff` invokes the operation exactly
`k + 1` times when it fails on its first `k` invocations and then
succeeds (`k < N`), and exactly `N` times when every invocation fails;
the utility is a total function into plain results — the `except` clause
swallows every raise, so no error reaches the caller — and with `N = 1`
a single attempt is made and its failure discarded (the all-fail case at
`N = 1`). -/
theorem C3_retry_invocation_counts (outcomes : Nat → Bool) (N k : Nat) :
    (k < N → (∀ j, j < k → outcomes j = false) → outcomes k = true →
      retryCalls outcomes N = k + 1) ∧
    ((∀ j, j < N → outcomes j = false) → retryCalls outcomes N = N) := by
  constructor
  · intro hk hf hs
    have h := expBackoffGo_pure_first_success outcomes N 0 k hk
      (fun j hj => by simpa using hf j hj) (by simpa using hs)
    simpa [retryCalls, exp_backoff] using h
  · intro hf
    have h := expBackoffGo_pure_all_fail outcomes N 0
      (fun j hj => by simpa using hf j hj)
    simpa [retryCalls, exp_backoff] using h

/-- Witness for C3: an operation failing twice then succeeding under
bound 5 is invoked 3 times; an always-failing operation under bound 1 is
invoked once. -/
theorem C3_witness :
    retryCalls (fun j => decide (2 ≤ j)) 5 = 3 ∧
    retryCalls (fun _ => false) 1 = 1 := by
  constructor
  · exact (C3_retry_invocation_counts (fun j => decide (2 ≤ j)) 5 2).1
      (by decide) (by decide) (by decide)
  · exact (C3_retry_invocation_counts (fun _ => false) 1 0).2
      (fun j _ => rfl)

/-! ### Claim C6: backoff wait schedule (corrected) -/

/-- C6 counterexample: with an always-failing operation and bound `N = 2`
the loop makes 2 invocations, but the wait inserted before attempt 2
(1-indexed) is `0² = 0`, not `(2-1)² = 1` as the claim states: the code
sleeps `i²` AFTER the failure of 0-indexed attempt `i`, so the sequence
of waits before attempts 2, 3, 4, ... is 0, 1, 4, ... -/
theorem C6_counterexample :
    retryCalls (fun _ => false) 2 = 2 ∧
    waitBeforeAttempt (retrySleeps (fun _ => false) 2) 2 = 0 ∧
    (0 : Nat) ≠ (2 - 1) ^ 2 := by decide

/-- C6 amended: the j-th recorded backoff sleep (0-indexed, executed
after the failure of 1-indexed attempt `j + 1`) is `j²`, so the waits
are 0, 1, 4, 9, ... in order, the index resetting on each call; hence
the wait inserted before attempt `i` (1-indexed, `2 ≤ i ≤` number of
invocations) is `(i - 2)²`, and zero wait precedes the first attempt. -/
theorem C6_backoff_schedule_amended (outcomes : Nat → Bool) (N : Nat) :
    (∀ j, j < (retrySleeps outcomes N).length →
      (retrySleeps outcomes N).getD j 0 = j ^ 2) ∧
    (∀ i, 2 ≤ i → i ≤ retryCalls outcomes N →
      waitBeforeAttempt (retrySleeps outcomes N) i = (i - 2) ^ 2) ∧
    waitBeforeAttempt (retrySleeps outcomes N) 1 = 0 := by
  obtain ⟨hpt, hc⟩ := expBackoffGo_pure_sleeps outcomes N 0
  refine ⟨fun j hj => ?_, fun i h2 hcalls => ?_, by simp [waitBeforeAttempt]⟩
  · have := hpt j (by simpa [retrySleeps, exp_backoff] using hj)
    simpa [retrySleeps, exp_backoff] using this
  · have hlt : i - 2 < (retrySleeps outcomes N).length := by
      have : retryCalls outcomes N ≤ (retrySleeps outcomes N).length + 1 := by
        simpa [retryCalls, retrySleeps, exp_backoff] using hc
      omega
    have := hpt (i - 2) (by simpa [retrySleeps, exp_backoff] using hlt)
    have hwb : waitBeforeAttempt (retrySleeps outcomes N) i =
        (retrySleeps outcomes N).getD (i - 2) 0 := by
      simp [waitBeforeAttempt]
      omega
    rw [hwb]
    simpa [retrySleeps, exp_backoff] using this

/-- Witness for C6 amended: with an always-failing operation and bound 3
the wait before attempt 3 is `(3-2)² = 1`, and no wait precedes the
first attempt. -/
theorem C6_witness :
    waitBeforeAttempt (retrySleeps (fun _ => false) 3) 3 = 1 ∧
    waitBeforeAttempt (retrySleeps (fun _ => false) 3) 1 = 0 := by
  have h := C6_backoff_schedule_amended (fun _ => false) 3
  refine ⟨?_, h.2.2⟩
  have h3 := h.2.1 3 (by decide) (by decide)
  simpa using h3

/-! ### Lemmas about toggle_light -/

/-- A `toggle_light` call whose HTTP outcomes satisfy `toggleSucceeds`
returns without raising, records its PUT and the 30-unit settle sleep,
and sets `self.on` to the desired value. -/
theorem toggle_light_of_succeeds (te : ToggleEnv) (s : Shim) (l : Nat)
    (v : Bool) (h : toggleSucceeds te v = true) :
    toggle_light te s l v = ⟨.ok (), [(l, v)], [30], setOn s v⟩ := by
  cases te with
  | mk p rd =>
    cases p with
    | httpErr => simp [toggleSucceeds] at h
    | ok2xx =>
      cases hr : readOnValue rd with
      | error e => simp [toggleSucceeds, hr] at h
      | ok v2 =>
        simp [toggleSucceeds, hr] at h
        simp [toggle_light, hr, h]

/-- A `toggle_light` call whose HTTP outcomes violate `toggleSucceeds`
raises and leaves the shim state untouched. -/
theorem toggle_light_of_fails (te : ToggleEnv) (s : Shim) (l : Nat)
    (v : Bool) (h : toggleSucceeds te v = false) :
    (toggle_light te s l v).res = .error () ∧
      (toggle_light te s l v).st = s := by
  cases te with
  | mk p rd =>
    cases p with
    | httpErr => simp [toggle_light]
    | ok2xx =>
      cases hr : readOnValue rd with
      | error e => simp [toggle_light, hr]
      | ok v2 =>
        simp [toggleSucceeds, hr] at h
        simp [toggle_light, hr, h]

/-! ### Claim C4: write, settle, verify, fail on mismatch -/

/-- C4: a `toggle_light` call raises (counts as an unsuccessful attempt
for the retry utility) when the PUT errors; after a 2xx PUT it performs
exactly the fixed 30-unit settle sleep before the verification read; it
raises when the verification read errors; and it raises whenever the
value read back differs from the desired one. -/
theorem C4_toggle_verifies_after_settle (env : ToggleEnv) (s : Shim)
    (l : Nat) (v : Bool) :
    (env.put = .httpErr → (toggle_light env s l v).res = .error ()) ∧
    (env.put = .ok2xx → (toggle_light env s l v).sleeps = [30]) ∧
    (env.put = .ok2xx → env.read = .httpErr →
      (toggle_light env s l v).res = .error ()) ∧
    (∀ r, env.put = .ok2xx → readOnValue env.read = .ok r → r ≠ some v →
      (toggle_light env s l v).res = .error ()) := by
  refine ⟨fun hp => ?_, fun hp => ?_, fun hp hr => ?_, fun r hp hr hne => ?_⟩
  · simp [toggle_light, hp]
  · cases henv : readOnValue env.read with
    | error e => simp [toggle_light, hp, henv]
    | ok v2 =>
      by_cases hv : v2 = some v <;> simp [toggle_light, hp, henv, hv]
  · have h : readOnValue env.read = .error () := by simp [readOnValue, hr]
    simp [toggle_light, hp, h]
  · simp [toggle_light, hp, hr, hne]

/-- Witness for C4: with a 2xx write whose verification reads back
`on = false` against desired `true`, the call sleeps exactly 30 and
raises; with an erroring PUT it raises. -/
theorem C4_witness :
    (toggle_light (toggleReadBack false) shimOneTarget 7 true).res =
      .error () ∧
    (toggle_light (toggleReadBack false) shimOneTarget 7 true).sleeps =
      [30] ∧
    (toggle_light ⟨.httpErr, .ok none⟩ shimOneTarget 7 true).res =
      .error () := by
  refine ⟨?_, ?_, ?_⟩
  · exact (C4_toggle_verifies_after_settle (toggleReadBack false)
      shimOneTarget 7 true).2.2.2 (some false) rfl rfl (by decide)
  · exact (C4_toggle_verifies_after_settle (toggleReadBack false)
      shimOneTarget 7 true).2.1 rfl
  · exact (C4_toggle_verifies_after_settle ⟨.httpErr, .ok none⟩
      shimOneTarget 7 true).1 rfl

/-! ### Claim C9: SwitchState is mutated atomically with success -/

/-- C9: `toggle_light` mutates the stored SwitchState atomically with
respect to failure — whenever the call raises (PUT error, verification
read error, or verification mismatch) the shim state is left unchanged,
and whenever it returns normally `self.on` has been assigned the desired
value. -/
theorem C9_toggle_state_atomic (env : ToggleEnv) (s : Shim) (l : Nat)
    (v : Bool) :
    ((toggle_light env s l v).res = .error () →
      (toggle_light env s l v).st = s) ∧
    ((toggle_light env s l v).res = .ok () →
      (toggle_light env s l v).st = setOn s v) := by
  cases hts : toggleSucceeds env v with
  | true =>
    have h := toggle_light_of_succeeds env s l v hts
    rw [h]
    constructor
    · intro hres; simp at hres
    · intro _; rfl
  | false =>
    have h := toggle_light_of_fails env s l v hts
    constructor
    · intro _; exact h.2
    · intro hres; rw [h.1] at hres; simp at hres

/-- Witness for C9: a verified write flips the stored state; a mismatched
verification leaves it untouched. -/
theorem C9_witness :
    (toggle_light (toggleReadBack true) shimOneTarget 7 true).st =
      setOn shimOneTarget true ∧
    (toggle_light (toggleReadBack false) shimOneTarget 7 true).st =
      shimOneTarget := by
  constructor
  · exact (C9_toggle_state_atomic (toggleReadBack true)
      shimOneTarget 7 true).2 (by rfl)
  · exact (C9_toggle_state_atomic (toggleReadBack false)
      shimOneTarget 7 true).1 (by rfl)

/-! ### Lemmas about exp_backoff over toggle_light -/

/-- When every attempt's HTTP outcomes make `toggle_light` fail, the
retried loop never touches the shim state. -/
theorem expBackoffGo_toggle_all_fail (te : Nat → ToggleEnv) (l : Nat)
    (v : Bool) (hall : ∀ j, toggleSucceeds (te j) v = false) :
    ∀ n i s,
      (expBackoffGo (fun i2 sh => toggle_light (te i2) sh l v) i n s).2.2.2 =
        s := by
  intro n
  induction n with
  | zero => intro i s; rfl
  | succ n ih =>
    intro i s
    have hf := toggle_light_of_fails (te i) s l v (hall i)
    simp [expBackoffGo, hf.1, hf.2, ih]

/-- The retried loop either leaves the shim state unchanged or sets its
`on` field to the desired value. -/
theorem expBackoffGo_toggle_st_or (te : Nat → ToggleEnv) (l : Nat)
    (v : Bool) :
    ∀ n i s,
      (expBackoffGo (fun i2 sh => toggle_light (te i2) sh l v) i n s).2.2.2 =
          s ∨
      (expBackoffGo (fun i2 sh => toggle_light (te i2) sh l v) i n s).2.2.2 =
          setOn s v := by
  intro n
  induction n with
  | zero => intro i s; exact Or.inl rfl
  | succ n ih =>
    intro i s
    cases hts : toggleSucceeds (te i) v with
    | true =>
      have h := toggle_light_of_succeeds (te i) s l v hts
      right
      simp [expBackoffGo, h]
    | false =>
      have h := toggle_light_of_fails (te i) s l v hts
      have hrec := ih (i + 1) s
      simpa [expBackoffGo, h.1, h.2] using hrec

/-- If some attempt within the bound succeeds, the retried loop ends
with `on` set to the desired value (the first success is reached because
the loop only stops early on success). -/
theorem expBackoffGo_toggle_succ (te : Nat → ToggleEnv) (l : Nat)
    (v : Bool) :
    ∀ n i s, (∃ j, j < n ∧ toggleSucceeds (te (i + j)) v = true) →
      (expBackoffGo (fun i2 sh => toggle_light (te i2) sh l v) i n s).2.2.2 =
        setOn s v := by
  intro n
  induction n with
  | zero =>
    intro i s h
    obtain ⟨j, hj, _⟩ := h
    exact absurd hj (Nat.not_lt_zero j)
  | succ n ih =>
    intro i s h
    obtain ⟨j, hj, hsucc⟩ := h
    cases hts : toggleSucceeds (te i) v with
    | true =>
      have heq := toggle_light_of_succeeds (te i) s l v hts
      simp [expBackoffGo, heq]
    | false =>
      have hf := toggle_light_of_fails (te i) s l v hts
      cases j with
      | zero =>
        simp at hsucc
        rw [hts] at hsucc
        exact absurd hsucc (by simp)
      | succ j2 =>
        have harith : i + (j2 + 1) = i + 1 + j2 := by omega
        rw [harith] at hsucc
        have hrec := ih (i + 1) s ⟨j2, by omega, hsucc⟩
        simpa [expBackoffGo, hf.1, hf.2] using hrec

/-- `exp_backoff` version of `expBackoffGo_toggle_all_fail`. -/
theorem exp_backoff_toggle_all_fail (te : Nat → ToggleEnv) (l : Nat)
    (v : Bool) (tries : Nat) (s : Shim)
    (hall : ∀ j, toggleSucceeds (te j) v = false) :
    (exp_backoff (fun i sh => toggle_light (te i) sh l v) tries s).2.2.2 =
      s :=
  expBackoffGo_toggle_all_fail te l v hall tries 0 s

/-- `exp_backoff` version of `expBackoffGo_toggle_st_or`. -/
theorem exp_backoff_toggle_st_or (te : Nat → ToggleEnv) (l : Nat)
    (v : Bool) (tries : Nat) (s : Shim) :
    (exp_backoff (fun i sh => toggle_light (te i) sh l v) tries s).2.2.2 =
        s ∨
    (exp_backoff (fun i sh => toggle_light (te i) sh l v) tries s).2.2.2 =
        setOn s v :=
  expBackoffGo_toggle_st_or te l v tries 0 s

/-- `exp_backoff` version of `expBackoffGo_toggle_succ`. -/
theorem exp_backoff_toggle_succ (te : Nat → ToggleEnv) (l : Nat)
    (v : Bool) (tries : Nat) (s : Shim)
    (h : ∃ j, j < tries ∧ toggleSucceeds (te j) v = true) :
    (exp_backoff (fun i sh => toggle_light (te i) sh l v) tries s).2.2.2 =
      setOn s v := by
  obtain ⟨j, hj, hs⟩ := h
  exact expBackoffGo_toggle_succ te l v tries 0 s ⟨j, hj, by simpa using hs⟩

/-! ### Lemmas about drive_targets -/

/-- Driving the targets either leaves the shim unchanged or sets `on` to
the desired value; no other field is ever written. -/
theorem drive_targets_st_or (tenv : Nat → Nat → ToggleEnv) (v : Bool) :
    ∀ ls p s, (drive_targets tenv v ls p s).1 = s ∨
      (drive_targets tenv v ls p s).1 = setOn s v := by
  intro ls
  induction ls with
  | nil => intro p s; exact Or.inl rfl
  | cons l rest ih =>
    intro p s
    simp only [drive_targets]
    rcases exp_backoff_toggle_st_or (tenv p) l v 3 s with h1 | h1 <;> rw [h1]
    · exact ih (p + 1) s
    · rcases ih (p + 1) (setOn s v) with h2 | h2
      · exact Or.inr h2
      · right; rw [h2]; simp [setOn]

/-- When every attempt for every target fails, driving the targets
leaves the shim unchanged. -/
theorem drive_targets_all_fail (tenv : Nat → Nat → ToggleEnv) (v : Bool)
    (hall : ∀ p i, toggleSucceeds (tenv p i) v = false) :
    ∀ ls p s, (drive_targets tenv v ls p s).1 = s := by
  intro ls
  induction ls with
  | nil => intro p s; rfl
  | cons l rest ih =>
    intro p s
    simp only [drive_targets]
    rw [exp_backoff_toggle_all_fail (tenv p) l v 3 s fun j => hall p j]
    exact ih (p + 1) s

/-- When some target position has a successful attempt within the bound
of 3, driving the targets ends with `on` set to the desired value. -/
theorem drive_targets_succ (tenv : Nat → Nat → ToggleEnv) (v : Bool) :
    ∀ ls p s,
      (∃ q, q < ls.length ∧ ∃ i, i < 3 ∧
        toggleSucceeds (tenv (p + q) i) v = true) →
      (drive_targets tenv v ls p s).1 = setOn s v := by
  intro ls
  induction ls with
  | nil =>
    intro p s h
    obtain ⟨q, hq, _⟩ := h
    simp at hq
  | cons l rest ih =>
    intro p s h
    obtain ⟨q, hq, i, hi, hsucc⟩ := h
    simp only [drive_targets]
    cases q with
    | zero =>
      have h1 :
          (exp_backoff (fun i2 sh => toggle_light (tenv p i2) sh l v) 3
            s).2.2.2 = setOn s v :=
        exp_backoff_toggle_succ (tenv p) l v 3 s ⟨i, hi, by simpa using hsucc⟩
      rw [h1]
      rcases drive_targets_st_or tenv v rest (p + 1) (setOn s v) with h2 | h2
      · rw [h2]
      · rw [h2]; simp [setOn]
    | succ q2 =>
      have harith : p + (q2 + 1) = p + 1 + q2 := by omega
      rw [harith] at hsucc
      have hex : ∃ q3, q3 < rest.length ∧ ∃ i2, i2 < 3 ∧
          toggleSucceeds (tenv (p + 1 + q3) i2) v = true :=
        ⟨q2, by simpa using hq, i, hi, hsucc⟩
      rcases exp_backoff_toggle_st_or (tenv p) l v 3 s with h1 | h1 <;>
        rw [h1]
      · exact ih (p + 1) s hex
      · rw [ih (p + 1) (setOn s v) hex]; simp [setOn]

/-! ### Lemmas about run_step -/

/-- When the probe result equals the current state, a reconciliation
step performs only its pre-sleep: no writes, state unchanged. -/
theorem run_step_noop (env : StepEnv) (s : Shim)
    (h : lights_reachable env.probe s.trigger_light_ids = s.on_) :
    run_step env s = (s, [], [if s.on_ then 30 else 5]) := by
  cases hon : s.on_ with
  | true => rw [hon] at h; simp [run_step, h, hon]
  | false => rw [hon] at h; simp [run_step, h, hon]

/-- A reconciliation step either leaves the shim unchanged or sets its
`on` field to the probe result. -/
theorem run_step_st_or (env : StepEnv) (s : Shim) :
    (run_step env s).1 = s ∨
    (run_step env s).1 =
      setOn s (lights_reachable env.probe s.trigger_light_ids) := by
  cases hpr : lights_reachable env.probe s.trigger_light_ids <;>
    cases hon : s.on_
  · left; simp [run_step, hpr, hon]
  · have h := drive_targets_st_or env.toggle false s.target_light_ids 0 s
    simpa [run_step, hpr, hon] using h
  · have h := drive_targets_st_or env.toggle true s.target_light_ids 0 s
    simpa [run_step, hpr, hon] using h
  · left; simp [run_step, hpr, hon]

/-! ### Claim C1: state after a transition branch (corrected) -/

/-- C1 counterexample: a shim that is OFF with an empty target list and a
reachable trigger takes the transition-to-ON branch (probe result `true`
differs from the state `false`), yet after the step the state is still
`false`, not the probe result: `run` never assigns `self.on` itself —
only a successful `toggle_light` does, and here none ran. -/
theorem C1_counterexample :
    lights_reachable stepEnvWriteOK.probe shimNoTargets.trigger_light_ids =
      true ∧
    shimNoTargets.on_ = false ∧
    (run_step stepEnvWriteOK shimNoTargets).1.on_ = false := by decide

/-- C1 amended: in a reconciliation step that takes a transition branch
(probe result `b` differs from the current state), the SwitchState is
updated only inside individually successful target writes: when every
attempt for every target fails — in particular when the target list is
empty — the shim is left entirely unchanged (state still the old value,
not `b`), and when some target has a successful attempt within the
bound of 3 the state ends equal to `b`. -/
theorem C1_transition_state_amended (env : StepEnv) (s : Shim) (b : Bool)
    (hpr : lights_reachable env.probe s.trigger_light_ids = b)
    (hne : b ≠ s.on_) :
    ((∀ p i, toggleSucceeds (env.toggle p i) b = false) →
      (run_step env s).1 = s) ∧
    ((∃ q, q < s.target_light_ids.length ∧ ∃ i, i < 3 ∧
        toggleSucceeds (env.toggle q i) b = true) →
      (run_step env s).1 = setOn s b) := by
  cases hon : s.on_ with
  | false =>
    have hb : b = true := by
      cases b with
      | false => rw [hon] at hne; exact absurd rfl hne
      | true => rfl
    subst hb
    constructor
    · intro hall
      have h := drive_targets_all_fail env.toggle true hall
        s.target_light_ids 0 s
      simpa [run_step, hpr, hon] using h
    · intro hex
      obtain ⟨q, hq, i, hi, hsucc⟩ := hex
      have h := drive_targets_succ env.toggle true s.target_light_ids 0 s
        ⟨q, hq, i, hi, by simpa using hsucc⟩
      simpa [run_step, hpr, hon] using h
  | true =>
    have hb : b = false := by
      cases b with
      | true => rw [hon] at hne; exact absurd rfl hne
      | false => rfl
    subst hb
    constructor
    · intro hall
      have h := drive_targets_all_fail env.toggle false hall
        s.target_light_ids 0 s
      simpa [run_step, hpr, hon] using h
    · intro hex
      obtain ⟨q, hq, i, hi, hsucc⟩ := hex
      have h := drive_targets_succ env.toggle false s.target_light_ids 0 s
        ⟨q, hq, i, hi, by simpa using hsucc⟩
      simpa [run_step, hpr, hon] using h

/-- Witness for C1 amended: with all write attempts failing the shim is
unchanged after the transition branch; with a first-attempt success the
state ends equal to the probe result. -/
theorem C1_witness :
    (run_step stepEnvWriteFails shimOneTarget).1 = shimOneTarget ∧
    (run_step stepEnvWriteOK shimOneTarget).1 = setOn shimOneTarget true := by
  constructor
  · exact (C1_transition_state_amended stepEnvWriteFails shimOneTarget true
      (by decide) (by decide)).1 (fun _ _ => rfl)
  · exact (C1_transition_state_amended stepEnvWriteOK shimOneTarget true
      (by decide) (by decide)).2 ⟨0, by decide, 0, by decide, rfl⟩

/-! ### Claim C5: no-change steps are write-free (corrected) -/

/-- C5 counterexample: with one target whose writes always fail
verification, two successive reconciliation steps both observe a
reachable trigger from state OFF (no intervening OFF observation), and
BOTH steps issue target writes: the state-equality guard does not fire
because the first step's failed writes left SwitchState at OFF. -/
theorem C5_counterexample :
    lights_reachable stepEnvWriteFails.probe
      shimOneTarget.trigger_light_ids = true ∧
    shimOneTarget.on_ = false ∧
    (run_step stepEnvWriteFails shimOneTarget).2.1 ≠ [] ∧
    (run_step stepEnvWriteFails shimOneTarget).1.on_ = false ∧
    lights_reachable stepEnvWriteFails.probe
      (run_step stepEnvWriteFails shimOneTarget).1.trigger_light_ids =
      true ∧
    (run_step stepEnvWriteFails
      (run_step stepEnvWriteFails shimOneTarget).1).2.1 ≠ [] := by decide

/-- C5 amended: in every reconciliation step in which the probe result
equals the current SwitchState, no device write is issued and the state
is unchanged (only the pre-sleep happens); consequently a second
transition-to-ON step issues no writes provided the first one actually
left SwitchState at ON (i.e. at least one of its target writes
succeeded) and the next probe still observes reachable. -/
theorem C5_noop_guard_amended (env env2 : StepEnv) (s : Shim) :
    (lights_reachable env.probe s.trigger_light_ids = s.on_ →
      run_step env s = (s, [], [if s.on_ then 30 else 5])) ∧
    (s.on_ = false →
      lights_reachable env.probe s.trigger_light_ids = true →
      (run_step env s).1.on_ = true →
      lights_reachable env2.probe (run_step env s).1.trigger_light_ids =
        true →
      (run_step env2 (run_step env s).1).2.1 = []) := by
  constructor
  · exact run_step_noop env s
  · intro _ _ hon2 hpr2
    have h := run_step_noop env2 (run_step env s).1 (by rw [hpr2, hon2])
    rw [h]

/-- Witness for C5 amended: a step whose probe matches the ON state is
write-free and state-preserving, and after a successful transition-to-ON
step the following step issues no writes. -/
theorem C5_witness :
    run_step stepEnvWriteOK (setOn shimOneTarget true) =
      (setOn shimOneTarget true, [], [30]) ∧
    (run_step stepEnvWriteOK (run_step stepEnvWriteOK shimOneTarget).1).2.1 =
      [] := by
  constructor
  · have h := (C5_noop_guard_amended stepEnvWriteOK stepEnvWriteOK
      (setOn shimOneTarget true)).1 (by decide)
    simpa using h
  · exact (C5_noop_guard_amended stepEnvWriteOK stepEnvWriteOK
      shimOneTarget).2 (by decide) (by decide) (by decide) (by decide)

/-! ### Claim C8: initial state comes from an initial probe -/

/-- C8: a freshly constructed shim's SwitchState is exactly the result
of a reachability probe (`lights_reachable`, the same operation the run
loop uses) over the configured triggers — and it is not a fixed default:
two constructions differing only in the hub's responses yield different
initial states.  The state is a plain boolean, with no separate
"unknown" value. -/
theorem C8_init_state_is_probe (env : Nat → GetResult) (api : String)
    (trg tgt : List Nat) :
    (DumbSwitchShim_init env api trg tgt).on_ = lights_reachable env trg ∧
    (DumbSwitchShim_init probeAllReachable "" [1] []).on_ ≠
      (DumbSwitchShim_init probeErrAt1 "" [1] []).on_ :=
  ⟨rfl, by decide⟩

/-! ### Lemmas about the logging world -/

/-- Attaching a handler never changes the severity level. -/
theorem addHandler_level (w : LogWorld) (h : Nat) :
    (addHandler w h).level = w.level := by
  unfold addHandler; split <;> rfl

/-- Detaching a handler never changes the severity level. -/
theorem removeHandler_level (w : LogWorld) (h : Nat) :
    (removeHandler w h).level = w.level := by
  unfold removeHandler; split <;> rfl

/-- Closing a handler never changes the severity level. -/
theorem closeHandler_level (w : LogWorld) (h : Nat) :
    (closeHandler w h).level = w.level := rfl

/-- Closing a handler never changes the attached-handler list. -/
theorem closeHandler_handlers (w : LogWorld) (h : Nat) :
    (closeHandler w h).handlers = w.handlers := rfl

/-- Attaching a not-yet-attached handler appends it. -/
theorem addHandler_handlers_of_not_mem (w : LogWorld) (h : Nat)
    (hm : h ∉ w.handlers) :
    (addHandler w h).handlers = w.handlers ++ [h] := by
  unfold addHandler
  rw [if_neg hm]

/-- Erasing an element appended to a list it did not occur in restores
the list. -/
theorem erase_append_self (l : List Nat) (h : Nat) (hm : h ∉ l) :
    (l ++ [h]).erase h = l := by
  rw [List.erase_append_right _ hm]
  simp

/-! ### Claim C7: the logging context is a transparent bracket -/

/-- C7: for every entry into the scoped logging context — any
combination of level override and attached sink, with any close flag —
and on every exit path (the body returning normally or raising), the
logger's severity level is restored to its prior value whenever a level
override was given, the added sink is detached (the handler list is
restored) whenever a sink was given, that sink is closed whenever the
close flag is set (its default), and the body's outcome — value or
raised error — passes through unchanged, never suppressed or altered. -/
theorem C7_logging_context_bracket {E A : Type} (c : LoggingContext)
    (body : Except E A) (w : LogWorld) :
    (∀ lv, c.level = some lv →
      (withLoggingContext c body w).2.level = w.level) ∧
    (∀ h, c.handler = some h → h ∉ w.handlers →
      (withLoggingContext c body w).2.handlers = w.handlers) ∧
    (∀ h, c.handler = some h → c.close = true →
      h ∈ (withLoggingContext c body w).2.closed) ∧
    (withLoggingContext c body w).1 = body := by
  obtain ⟨clv, chd, ccl⟩ := c
  refine ⟨fun lv hlv => ?_, fun h hh hmem => ?_, fun h hh hcl => ?_, rfl⟩
  · subst hlv
    cases chd with
    | none =>
      simp [withLoggingContext, LoggingContext_enter, LoggingContext_exit]
    | some h2 =>
      cases ccl <;>
        simp [withLoggingContext, LoggingContext_enter, LoggingContext_exit,
          removeHandler_level, addHandler_level, closeHandler_level]
  · subst hh
    have herase : (w.handlers ++ [h]).erase h = w.handlers :=
      erase_append_self w.handlers h hmem
    cases clv <;> cases ccl <;>
      simp [withLoggingContext, LoggingContext_enter, LoggingContext_exit,
        addHandler, removeHandler, closeHandler, hmem, herase]
  · subst hh
    subst hcl
    cases clv <;>
      simp [withLoggingContext, LoggingContext_enter, LoggingContext_exit,
        closeHandler]

/-- Witness for C7: a context overriding the level to 10 and attaching
handler 5 with close set, around a raising body, restores level 20,
restores the empty handler list, closes handler 5, and lets the raise
through. -/
theorem C7_witness :
    (withLoggingContext ⟨some 10, some 5, true⟩
      (Except.error () : Except Unit Unit) ⟨20, [], []⟩).2.level = 20 ∧
    (withLoggingContext ⟨some 10, some 5, true⟩
      (Except.error () : Except Unit Unit) ⟨20, [], []⟩).2.handlers = [] ∧
    5 ∈ (withLoggingContext ⟨some 10, some 5, true⟩
      (Except.error () : Except Unit Unit) ⟨20, [], []⟩).2.closed ∧
    (withLoggingContext ⟨some 10, some 5, true⟩
      (Except.error () : Except Unit Unit) ⟨20, [], []⟩).1 =
      Except.error () := by
  have h := C7_logging_context_bracket (E := Unit) (A := Unit)
    ⟨some 10, some 5, true⟩ (Except.error ()) ⟨20, [], []⟩
  exact ⟨h.1 10 rfl, h.2.1 5 rfl (by simp), h.2.2.1 5 rfl rfl, h.2.2.2⟩

end HueShims
